import Mathlib

/-!
# Verification of the img4llm image-optimisation core

A shallow embedding of the TypeScript module that analyses an image buffer,
selects a processing strategy, optionally consults a remote vision-language
service (Ollama), validates model-generated SVG markup, and assembles exactly
one `OptimizeResult`.  External collaborators (the sharp codec, `fetch`,
`JSON.parse`) are modelled as explicit parameters: a `Codec` record supplies
the decoded metadata, raw pixel samples and the raster re-encoding, and a
`VlmEnv` record supplies the two HTTP outcomes and the JSON parse function.
JS strings are modelled as `List Char`, byte buffers as `List Nat`.
-/

namespace Img4llm

/-- Raw byte strings (JS `Buffer`): one `Nat` per byte. -/
abbrev Bytes := List Nat

/-- Text (JS strings) as a list of characters. -/
abbrev Chars := List Char

/-- The opening-brace character, written by code point. -/
def openBrace : Char := Char.ofNat 123

/-- The closing-brace character, written by code point. -/
def closeBrace : Char := Char.ofNat 125

/-- JS `String.prototype.trim`: drop whitespace from both ends. -/
def jsTrim (s : Chars) : Chars :=
  ((s.dropWhile Char.isWhitespace).reverse.dropWhile Char.isWhitespace).reverse

/-- Is `pat` a prefix of `s` up to ASCII case (the `i` regex flag)? -/
def ciStarts : Chars → Chars → Bool
  | [], _ => true
  | _ :: _, [] => false
  | p :: ps, c :: cs => (p.toLower == c.toLower) && ciStarts ps cs

/-- A JS regex word character, the class `\w`. -/
def isWordChar (c : Char) : Bool :=
  (('a' ≤ c && c ≤ 'z') || ('A' ≤ c && c ≤ 'Z') || ('0' ≤ c && c ≤ '9') || c == '_')

/-- Does `s` begin (case-insensitively) with `pat` followed by a word
boundary: end of input or a non-word character?  This is the anchored form
of the pattern `pat\b` as used on tags whose last character is a letter. -/
def tokenAt (pat s : Chars) : Bool :=
  ciStarts pat s &&
    match (s.drop pat.length).head? with
    | none => true
    | some c => !isWordChar c

/-- Number of positions of `s` at which `pat\b` matches (the `g` flag count:
the patterns used are tag heads such as `<path`, whose matches never
overlap, so counting match positions equals the regex match count). -/
def tokenCount (pat : Chars) : Chars → Nat
  | [] => 0
  | c :: cs => (if tokenAt pat (c :: cs) then 1 else 0) + tokenCount pat cs

/-- Does `pat\b` match anywhere in `s` (regex `test`)? -/
def hasToken (pat : Chars) : Chars → Bool
  | [] => false
  | c :: cs => tokenAt pat (c :: cs) || hasToken pat cs

/-- The pattern `href\s*=\s*["\x27]data:image\/` anchored at the head of `s`
(`\s*` is greedy and `=` is not whitespace, so maximal munch is exact). -/
def hrefDataImageAt (s : Chars) : Bool :=
  if ciStarts "href".toList s then
    match (s.drop 4).dropWhile Char.isWhitespace with
    | '=' :: rest =>
      match rest.dropWhile Char.isWhitespace with
      | q :: rest' => (q == '"' || q == Char.ofNat 39) && ciStarts "data:image/".toList rest'
      | [] => false
    | _ => false
  else false

/-- Does `href\s*=\s*["\x27]data:image\/` (flag `i`) match anywhere in `s`? -/
def hasHrefDataImage : Chars → Bool
  | [] => false
  | c :: cs => hrefDataImageAt (c :: cs) || hasHrefDataImage cs

/-- The six primitive element names of the validator's final test. -/
def primTags : List Chars :=
  ["text".toList, "rect".toList, "circle".toList, "line".toList,
   "polyline".toList, "polygon".toList]

/-- Does `<(text|rect|circle|line|polyline|polygon)\b` (flag `i`) match
anywhere in `s`? -/
def hasPrimTag : Chars → Bool
  | [] => false
  | c :: cs => primTags.any (fun w => tokenAt ('<' :: w) (c :: cs)) || hasPrimTag cs

/-- UTF-8 encoding of one character. -/
def utf8Char (c : Char) : List Nat :=
  let n := c.toNat
  if n < 128 then [n]
  else if n < 2048 then [192 + n / 64, 128 + n % 64]
  else if n < 65536 then [224 + n / 4096, 128 + n / 64 % 64, 128 + n % 64]
  else [240 + n / 262144, 128 + n / 4096 % 64, 128 + n / 64 % 64, 128 + n % 64]

/-- `Buffer.from(s, 'utf-8')`: the UTF-8 encoding of a string; its length is
`Buffer.byteLength(s, 'utf8')`. -/
def utf8Encode (s : Chars) : Bytes :=
  (s.map utf8Char).flatten

/-- `isLikelySemanticSvg` (part_002:285–299): the semantic-output candidacy
validator, a chain of early `false` returns over the trimmed text. -/
def isLikelySemanticSvg (svgCode : Chars) (maxBytes : Nat) : Bool :=
  let svg := jsTrim svgCode
  if ¬ (svg.take 4 = "<svg".toList) then false
  else if maxBytes < (utf8Encode svg).length then false
  else if hasToken "<image".toList svg then false
  else if hasHrefDataImage svg then false
  else if 10 < tokenCount "<path".toList svg then false
  else if ¬ hasPrimTag svg then false
  else true

-- ### Data model

/-- Pixel dimensions, the nested `dimensions` object of `ImageMetadata`. -/
structure Dimensions where
  width : Nat
  height : Nat
  deriving DecidableEq, Repr

/-- `ImageMetadata` (part_002:7–18). -/
structure ImageMetadata where
  dimensions : Dimensions
  format : String
  filesize : Nat
  distinctColors : Nat
  aspectRatio : ℚ
  deriving DecidableEq

/-- `ImageStrategy` (part_002:21–28). -/
inductive ImageStrategy where
  | RASTER_OPTIMIZE
  | SEMANTIC_SVG
  | KEEP_AS_IS
  deriving DecidableEq, Repr

/-- `ImageAnalysisResult` (part_002:31–38). -/
structure ImageAnalysisResult where
  metadata : ImageMetadata
  strategy : ImageStrategy
  confidence : Nat
  deriving DecidableEq

/-- `OptimizeOptions` (part_002:41–54); a missing field is `none`. -/
structure OptimizeOptions where
  maxDimension : Option Nat := none
  quality : Option Nat := none
  generateCaption : Option Bool := none
  captionModel : Option String := none
  semanticSvg : Option Bool := none
  extractText : Option Bool := none
  deriving DecidableEq

/-- `OptimizeResult` (part_002:57–70); the optional `caption` and
`extractedText` keys are `none` when the source object omits them. -/
structure OptimizeResult where
  buffer : Bytes
  metadata : ImageMetadata
  strategy : ImageStrategy
  mimeType : String
  caption : Option Chars := none
  extractedText : Option Chars := none
  deriving DecidableEq

/-- `ContentType` (part_002:73). -/
inductive ContentType where
  | diagram
  | text
  | photo
  | complex
  deriving DecidableEq, Repr

/-- `VlmAnalysisResult` (part_002:76–89); `none` models JS `null`. -/
structure VlmAnalysisResult where
  caption : Chars
  contentType : ContentType
  svgCandidate : Bool
  svgReason : Chars
  svgCode : Option Chars
  extractedText : Option Chars
  deriving DecidableEq

-- ### External collaborators

/-- The object `sharp(input).metadata()` resolves to: each field may be
absent (`undefined`). -/
structure SharpMeta where
  width : Option Nat
  height : Option Nat
  format : Option String
  size : Option Nat

/-- The raw decode `sharp(input).removeAlpha().raw().toBuffer(...)`: the
per-channel sample bytes and the decode info's dimensions. -/
structure RawImage where
  data : Bytes
  width : Nat
  height : Nat

/-- The external raster codec: metadata decoding, raw-sample decoding and the
resize/re-encode call.  Deterministic functions of the input bytes, as the
spec's stateless-collaborator model prescribes. -/
structure Codec where
  metaOf : Bytes → SharpMeta
  rawOf : Bytes → RawImage
  rasterOf : Bytes → Nat → Nat → Bytes

-- ### Metadata and colour-cardinality estimation

/-- The packed 24-bit key of pixel `i`:
`(data[3i] << 16) | (data[3i+1] << 8) | data[3i+2]`, an out-of-range read
(JS `undefined` in a shift) contributing `0`. -/
def pixelKey (data : Bytes) (i : Nat) : Nat :=
  ((data.getD (i * 3) 0) <<< 16) ||| ((data.getD (i * 3 + 1) 0) <<< 8) |||
    (data.getD (i * 3 + 2) 0)

/-- `countDistinctColors` (part_002:123–138) on the raw decode of the input.
The loop `for (i = 0; i < totalPixels; i += step)` visits exactly the
multiples of `step` below `totalPixels` (the step is at least 1); the `Set`'s
final size is the number of distinct keys inserted. -/
def countDistinctColors (raw : RawImage) (sampleSize : Nat := 1000) :
    Except String Nat :=
  if raw.width = 0 ∨ raw.height = 0 then
    .error "Unable to determine image dimensions"
  else
    let totalPixels := raw.width * raw.height
    let step := max 1 (totalPixels / sampleSize)
    let sampled := (List.range totalPixels).filter (fun i => i % step = 0)
    .ok ((sampled.map (pixelKey raw.data)).dedup.length)

/-- `extractMetadata` (part_002:102–114). -/
def extractMetadata (codec : Codec) (input : Bytes) :
    Except String ImageMetadata :=
  let meta := codec.metaOf input
  let width := meta.width.getD 0
  let height := meta.height.getD 0
  match countDistinctColors (codec.rawOf input) with
  | .error e => .error e
  | .ok distinctColors =>
    .ok { dimensions := ⟨width, height⟩
          format := meta.format.getD "unknown"
          filesize := meta.size.getD input.length
          distinctColors := distinctColors
          aspectRatio := if 0 < height then (width : ℚ) / (height : ℚ) else 0 }

/-- `determineStrategy` (part_002:147–150). -/
def determineStrategy (metadata : ImageMetadata) : ImageStrategy :=
  if metadata.format = "svg" then .KEEP_AS_IS else .RASTER_OPTIMIZE

/-- `optimizeRasterImage` (part_002:159–167): one opaque codec call. -/
def optimizeRasterImage (codec : Codec) (input : Bytes)
    (maxDimension : Nat := 768) (quality : Nat := 85) : Bytes :=
  codec.rasterOf input maxDimension quality

/-- `analyzeImage` (part_002:178–182). -/
def analyzeImage (codec : Codec) (input : Bytes) :
    Except String ImageAnalysisResult :=
  match extractMetadata codec input with
  | .error e => .error e
  | .ok metadata =>
    .ok { metadata := metadata
          strategy := determineStrategy metadata
          confidence := 1 }

-- ### VLM collaboration protocol

/-- A parsed JSON value, the result of a successful `JSON.parse`. -/
inductive JsValue where
  | jnull
  | jbool (b : Bool)
  | jnum (x : ℚ)
  | jstr (s : Chars)
  | jarr (xs : List JsValue)
  | jobj (fields : List (Chars × JsValue))

/-- JS property access `v.name` on a parsed JSON value: `none` models
`undefined`; `JSON.parse` output objects carry each key once. -/
def JsValue.getField (v : JsValue) (name : Chars) : Option JsValue :=
  match v with
  | .jobj fields => (fields.find? (fun f => f.1 == name)).map (·.2)
  | _ => none

/-- One observable network request of `analyzeWithVLM`: the `/api/tags`
availability probe or the single `/api/generate` call (tagged with whether
the full prompt was selected). -/
inductive NetCall where
  | probeTags
  | generate (fullPrompt : Bool)
  deriving DecidableEq, Repr

/-- The remote world one `analyzeWithVLM` call observes: whether the probe
responds ok, whether the generation call responds ok, the `response` field of
its JSON body, and the behaviour of `JSON.parse` (`none` models a throw). -/
structure VlmEnv where
  healthOk : Bool
  genOk : Bool
  response : Option Chars
  jparse : Chars → Option JsValue

/-- The options object of `analyzeWithVLM` (part_002:221–227). -/
structure VlmOptions where
  caption : Option Bool := none
  semanticSvg : Option Bool := none
  extractText : Option Bool := none
  mode : Option String := none
  model : Option String := none
  deriving DecidableEq

/-- JS truthiness of an optional boolean (`undefined` and `false` are falsy);
also the strict `=== true` checks of the source, which coincide here. -/
def optTrue (o : Option Bool) : Bool := o == some true

/-- JS truthiness of a string-or-null value: present and non-empty. -/
def strTruthy : Option Chars → Bool
  | some s => !s.isEmpty
  | none => false

/-- The all-defaults `VlmAnalysisResult` with a given caption, the shape of
every degraded return of `analyzeWithVLM` (part_002:254, 263, 281). -/
def VlmAnalysisResult.defaults (caption : Chars) : VlmAnalysisResult :=
  { caption := caption
    contentType := .complex
    svgCandidate := false
    svgReason := []
    svgCode := none
    extractedText := none }

/-- The first match of the regex `\x7b[\s\S]*\x7d` in `s`: it starts at the
first opening brace and, being greedy, ends at the last closing brace of the
whole text; `none` when no such block exists. -/
def braceMatch (s : Chars) : Option Chars :=
  match s.findIdx? (· == openBrace) with
  | none => none
  | some i =>
    let tail := s.drop i
    match tail.reverse.findIdx? (· == closeBrace) with
    | none => none
    | some k =>
      let j := tail.length - 1 - k
      if 1 ≤ j then some (tail.take (j + 1)) else none

/-- `validContentTypes.includes` (part_002:268–271): a parsed string is
trusted only when it is one of the four enumerated values. -/
def parseContentType (s : Chars) : ContentType :=
  if s = "diagram".toList then .diagram
  else if s = "text".toList then .text
  else if s = "photo".toList then .photo
  else .complex

/-- The response-extraction and field-validation step of `analyzeWithVLM`
(part_002:253–283).  A failed generation call yields the empty-caption
defaults; a missing brace block, a `JSON.parse` throw, or a parse result of
`null` (whose property access throws and is caught) yields the defaults with
the raw trimmed text as caption; otherwise every field is independently
type-checked. -/
def vlmExtract (env : VlmEnv) : VlmAnalysisResult :=
  if !env.genOk then .defaults []
  else
    let raw := jsTrim (env.response.getD [])
    match braceMatch raw with
    | none => .defaults raw
    | some block =>
      match env.jparse block with
      | none => .defaults raw
      | some .jnull => .defaults raw
      | some parsed =>
        { caption := match parsed.getField "caption".toList with
                     | some (.jstr s) => jsTrim s
                     | _ => []
          contentType := match parsed.getField "contentType".toList with
                         | some (.jstr s) => parseContentType s
                         | _ => .complex
          svgCandidate := match parsed.getField "svgCandidate".toList with
                          | some (.jbool b) => b
                          | _ => false
          svgReason := match parsed.getField "svgReason".toList with
                       | some (.jstr s) => s
                       | _ => []
          svgCode := match parsed.getField "svgCode".toList with
                     | some (.jstr s) => some s
                     | _ => none
          extractedText := match parsed.getField "extractedText".toList with
                           | some (.jstr s) => some s
                           | _ => none }

/-- `analyzeWithVLM` (part_002:219–283): the list of network calls issued and
the outcome; `Except.error` models the thrown `'ollama is unavailable'`. -/
def analyzeWithVLM (env : VlmEnv) (options : VlmOptions) :
    List NetCall × Except String VlmAnalysisResult :=
  if !env.healthOk then
    ([.probeTags], .error "ollama is unavailable")
  else
    let wantsFull := options.mode == some "full" ||
      optTrue options.semanticSvg || optTrue options.extractText
    ([.probeTags, .generate wantsFull], .ok (vlmExtract env))

-- ### MIME helpers

/-- JS `String.prototype.toLowerCase` on the character list of a string. -/
def strToLower (s : String) : String :=
  ⟨s.data.map Char.toLower⟩

/-- `getImageMimeTypeFromFormat` (part_002:343–354). -/
def getImageMimeTypeFromFormat (format : String) : String :=
  let normalized := strToLower format
  if normalized = "jpeg" then "image/jpeg"
  else if normalized = "jpg" then "image/jpeg"
  else if normalized = "png" then "image/png"
  else if normalized = "webp" then "image/webp"
  else if normalized = "gif" then "image/gif"
  else if normalized = "svg" then "image/svg+xml"
  else "image/png"

-- ### Strategy processing and orchestration

/-- `processImageByStrategy` (part_002:366–379). -/
def processImageByStrategy (codec : Codec) (buffer : Bytes)
    (analysis : ImageAnalysisResult)
    (maxDimension quality : Option Nat) : Bytes :=
  match analysis.strategy with
  | .RASTER_OPTIMIZE =>
    optimizeRasterImage codec buffer (maxDimension.getD 768) (quality.getD 85)
  | .SEMANTIC_SVG => buffer
  | .KEEP_AS_IS => buffer

/-- `options?.f` on a possibly-absent options object. -/
def getOpt {α : Type} (options : Option OptimizeOptions)
    (f : OptimizeOptions → Option α) : Option α :=
  match options with
  | none => none
  | some o => f o

/-- The guard of the VLM branch (part_002:417):
`options?.generateCaption || options?.semanticSvg || options?.extractText`. -/
def wantsVlm (options : Option OptimizeOptions) : Bool :=
  optTrue (getOpt options (·.generateCaption)) ||
    optTrue (getOpt options (·.semanticSvg)) ||
    optTrue (getOpt options (·.extractText))

/-- The options `optimizeForLLM` hands to `analyzeWithVLM` (part_002:420–426). -/
def vlmCallOptions (opts : OptimizeOptions) : VlmOptions :=
  { caption := opts.generateCaption
    semanticSvg := opts.semanticSvg
    extractText := opts.extractText
    mode := some (if optTrue opts.semanticSvg || optTrue opts.extractText
                  then "full" else "caption")
    model := opts.captionModel }

/-- The conditional caption spread
`...(options.generateCaption && vlmResult.caption ? \x7b caption \x7d : \x7b\x7d)`. -/
def vlmCaption (opts : OptimizeOptions) (vr : VlmAnalysisResult) : Option Chars :=
  if optTrue opts.generateCaption ∧ ¬ vr.caption.isEmpty then some vr.caption
  else none

/-- The shared fall-through return (part_002:458–469 and 472–483): baseline
strategy, format-derived MIME type for keep-as-is and JPEG otherwise. -/
def fallbackResult (codec : Codec) (input : Bytes)
    (maxDimension quality : Option Nat) (analysis : ImageAnalysisResult)
    (captionVal : Option Chars) : OptimizeResult :=
  { buffer := processImageByStrategy codec input analysis maxDimension quality
    metadata := analysis.metadata
    strategy := analysis.strategy
    mimeType := if analysis.strategy = ImageStrategy.KEEP_AS_IS
                then getImageMimeTypeFromFormat analysis.metadata.format
                else "image/jpeg"
    caption := captionVal
    extractedText := none }

/-- The VLM-requested branch of `optimizeForLLM` (part_002:417–469): the
unified call whose failure is caught (`Except.toOption`), then the semantic
SVG attempt, the text-image return, and the fall-through. -/
def vlmPath (codec : Codec) (venv : VlmEnv) (input : Bytes)
    (opts : OptimizeOptions) (analysis : ImageAnalysisResult) : OptimizeResult :=
  match (analyzeWithVLM venv (vlmCallOptions opts)).2.toOption with
  | none => fallbackResult codec input opts.maxDimension opts.quality analysis none
  | some vr =>
    if optTrue opts.semanticSvg ∧ vr.svgCandidate = true ∧
        strTruthy vr.svgCode ∧ isLikelySemanticSvg (vr.svgCode.getD []) 5120 then
      { buffer := utf8Encode (vr.svgCode.getD [])
        metadata := analysis.metadata
        strategy := .SEMANTIC_SVG
        mimeType := "image/svg+xml"
        caption := vlmCaption opts vr
        extractedText := none }
    else if (optTrue opts.extractText ∨ optTrue opts.generateCaption) ∧
        vr.contentType = .text ∧ strTruthy vr.extractedText then
      { buffer := processImageByStrategy codec input analysis
                    opts.maxDimension opts.quality
        metadata := analysis.metadata
        strategy := .RASTER_OPTIMIZE
        mimeType := "image/jpeg"
        caption := vlmCaption opts vr
        extractedText := vr.extractedText }
    else fallbackResult codec input opts.maxDimension opts.quality analysis
           (vlmCaption opts vr)

/-- `optimizeForLLM` (part_002:413–483).  On the VLM branch the options
object is necessarily present (some truthy field was read off it), so
`options.getD` never sees `none` there. -/
def optimizeForLLM (codec : Codec) (venv : VlmEnv) (input : Bytes)
    (options : Option OptimizeOptions) : Except String OptimizeResult :=
  match analyzeImage codec input with
  | .error e => .error e
  | .ok analysis =>
    if wantsVlm options then
      .ok (vlmPath codec venv input (options.getD {}) analysis)
    else
      .ok (fallbackResult codec input (getOpt options (·.maxDimension))
            (getOpt options (·.quality)) analysis none)

/-- The §3 strategy-to-MIME mapping the spec states as an invariant:
vector strategy to the vector MIME type, keep-as-is to the MIME type derived
from the original format, raster to JPEG. -/
def specMime : ImageStrategy → String → String
  | .SEMANTIC_SVG, _ => "image/svg+xml"
  | .KEEP_AS_IS, format => getImageMimeTypeFromFormat format
  | .RASTER_OPTIMIZE, _ => "image/jpeg"

/-- Is a network call a `/api/generate` invocation? -/
def isGenerate : NetCall → Bool
  | .generate _ => true
  | .probeTags => false

deriving instance DecidableEq for Except

-- ### Concrete instances used to exercise the theorems

/-- A codec decoding every input as a 2-pixel PNG (the reported metadata
height is 0, which the source maps to aspect ratio 0). -/
def pngCodec : Codec :=
  { metaOf := fun _ => ⟨some 2, some 0, some "png", some 10⟩
    rawOf := fun _ => ⟨[1, 2, 3, 4, 5, 6], 2, 1⟩
    rasterOf := fun _ _ _ => [9, 9] }

/-- A codec decoding every input as an SVG. -/
def svgCodec : Codec :=
  { metaOf := fun _ => ⟨some 2, some 0, some "svg", some 10⟩
    rawOf := fun _ => ⟨[1, 2, 3, 4, 5, 6], 2, 1⟩
    rasterOf := fun _ _ _ => [9, 9] }

/-- The metadata `pngCodec` yields for any input. -/
def pngMeta : ImageMetadata :=
  { dimensions := ⟨2, 0⟩, format := "png", filesize := 10,
    distinctColors := 2, aspectRatio := 0 }

/-- The metadata `svgCodec` yields for any input. -/
def svgMeta : ImageMetadata :=
  { dimensions := ⟨2, 0⟩, format := "svg", filesize := 10,
    distinctColors := 2, aspectRatio := 0 }

/-- A remote world whose availability probe fails. -/
def offEnv : VlmEnv := ⟨false, false, none, fun _ => none⟩

/-- A reachable remote world whose response carries no brace-delimited
block, so every parse attempt falls back. -/
def noJsonEnv : VlmEnv := ⟨true, true, some "hello world".toList, fun _ => none⟩

/-- A reachable remote world answering with a text-classified JSON object
carrying extracted text. -/
def textEnv : VlmEnv :=
  { healthOk := true
    genOk := true
    response := some "x\x7by\x7d".toList
    jparse := fun _ => some (.jobj
      [("contentType".toList, .jstr "text".toList),
       ("extractedText".toList, .jstr "hi".toList)]) }

/-- A reachable remote world answering with an accepted SVG candidate whose
code carries leading whitespace. -/
def svgEnv : VlmEnv :=
  { healthOk := true
    genOk := true
    response := some "x\x7by\x7d".toList
    jparse := fun _ => some (.jobj
      [("svgCandidate".toList, .jbool true),
       ("svgCode".toList, .jstr " <svg><rect/></svg>".toList),
       ("caption".toList, .jstr "a chart".toList)]) }

/-- Options requesting only a caption. -/
def capOpts : OptimizeOptions := { generateCaption := some true }

/-- Options requesting only the semantic-SVG capability. -/
def svgOpts : OptimizeOptions := { semanticSvg := some true }

/-- The raster result `optimizeForLLM` produces under `pngCodec` when no
semantic-SVG and no text return fires. -/
def pngResult : OptimizeResult :=
  { buffer := [9, 9]
    metadata := pngMeta
    strategy := .RASTER_OPTIMIZE
    mimeType := "image/jpeg" }

/-- The `SEMANTIC_SVG` result `optimizeForLLM` produces under `pngCodec`
and `svgEnv` with `svgOpts`. -/
def svgResult : OptimizeResult :=
  { buffer := utf8Encode " <svg><rect/></svg>".toList
    metadata := pngMeta
    strategy := .SEMANTIC_SVG
    mimeType := "image/svg+xml" }

/-- A 1×1 raw decode with one pixel. -/
def onePixelRaw : RawImage := ⟨[1, 2, 3], 1, 1⟩

/-- The channel bytes of a 1001-pixel image whose pixels all have distinct
colours: pixel `i` has channels `(i / 256, i % 256, 0)`, so its packed key
is `256 * i`. -/
def stripeData : Bytes :=
  ((List.range 1001).map (fun i => [i / 256, i % 256, 0])).flatten

/-- A 1001×1 raw decode over `stripeData`. -/
def stripeRaw : RawImage := ⟨stripeData, 1001, 1⟩

theorem isLikelySemanticSvg_spec (svgCode : Chars) (maxBytes : Nat) :
    isLikelySemanticSvg svgCode maxBytes = true ↔
      ((jsTrim svgCode).take 4 = "<svg".toList ∧
       (utf8Encode (jsTrim svgCode)).length ≤ maxBytes ∧
       hasToken "<image".toList (jsTrim svgCode) = false ∧
       hasHrefDataImage (jsTrim svgCode) = false ∧
       tokenCount "<path".toList (jsTrim svgCode) ≤ 10 ∧
       hasPrimTag (jsTrim svgCode) = true) := by
  simp only [isLikelySemanticSvg]
  split_ifs with h1 h2 h3 h4 h5 h6 <;> simp_all

-- ### C4 — the candidacy validator

/-- C4: the validator accepts exactly when the trimmed text begins with
`<svg`, its UTF-8 size is within `maxBytes`, it has no embedded-image
element and no data-URI image reference, at most 10 path elements, and at
least one primitive element; any violation yields `false` (no exception). -/
theorem isLikelySemanticSvg_charact (svgCode : Chars) (maxBytes : Nat) :
    isLikelySemanticSvg svgCode maxBytes = true ↔
      ((jsTrim svgCode).take 4 = "<svg".toList ∧
       (utf8Encode (jsTrim svgCode)).length ≤ maxBytes ∧
       hasToken "<image".toList (jsTrim svgCode) = false ∧
       hasHrefDataImage (jsTrim svgCode) = false ∧
       tokenCount "<path".toList (jsTrim svgCode) ≤ 10 ∧
       hasPrimTag (jsTrim svgCode) = true) :=
  isLikelySemanticSvg_spec svgCode maxBytes

-- ### General lemmas about the embedded functions

theorem analyzeImage_ok {codec : Codec} {input : Bytes} {a : ImageAnalysisResult}
    (h : analyzeImage codec input = .ok a) :
    a.strategy = determineStrategy a.metadata ∧
      extractMetadata codec input = .ok a.metadata := by
  unfold analyzeImage at h
  cases hm : extractMetadata codec input with
  | error e => rw [hm] at h; cases h
  | ok m =>
    rw [hm] at h
    injection h with h
    subst h
    exact ⟨rfl, by simp [hm]⟩

theorem determineStrategy_ne_semantic (m : ImageMetadata) :
    determineStrategy m ≠ .SEMANTIC_SVG := by
  unfold determineStrategy
  split <;> simp

theorem fallbackResult_mime (codec : Codec) (input : Bytes)
    (md q : Option Nat) (analysis : ImageAnalysisResult) (cap : Option Chars)
    (hne : analysis.strategy ≠ .SEMANTIC_SVG) :
    (fallbackResult codec input md q analysis cap).mimeType =
      specMime (fallbackResult codec input md q analysis cap).strategy
        (fallbackResult codec input md q analysis cap).metadata.format := by
  simp only [fallbackResult]
  cases hs : analysis.strategy <;> simp_all [specMime]

theorem except_toOption_some {ε α : Type} {e : Except ε α} {a : α}
    (h : e.toOption = some a) : e = .ok a := by
  cases e <;> simp_all [Except.toOption]

theorem wantsVlm_some {options : Option OptimizeOptions}
    (h : wantsVlm options = true) : ∃ o, options = some o := by
  cases options with
  | none => simp [wantsVlm, getOpt, optTrue] at h
  | some o => exact ⟨o, rfl⟩

-- ### C3 — strategy selection

/-- C3: for every `ImageMetadata`, `determineStrategy` returns `KEEP_AS_IS`
exactly when the format is `"svg"` and `RASTER_OPTIMIZE` exactly otherwise;
being a Lean function it is total with no other outcomes. -/
theorem determineStrategy_charact (m : ImageMetadata) :
    (determineStrategy m = .KEEP_AS_IS ↔ m.format = "svg") ∧
    (determineStrategy m = .RASTER_OPTIMIZE ↔ m.format ≠ "svg") := by
  unfold determineStrategy
  split_ifs with h <;> simp_all

-- ### C7 — extraction step never raises and falls back to the raw caption

/-- C7: once the availability probe has passed, the extraction step of
`analyzeWithVLM` always yields a result (never raises); when the successful
generation response contains no brace-delimited block, or parsing the first
such (greedy) block throws, the result's caption is the raw trimmed response
text and every other field is at its default. -/
theorem analyzeWithVLM_extraction_fallback (env : VlmEnv) (options : VlmOptions)
    (hh : env.healthOk = true) (hg : env.genOk = true) :
    (analyzeWithVLM env options).2 = .ok (vlmExtract env) ∧
    (braceMatch (jsTrim (env.response.getD [])) = none →
      vlmExtract env =
        { caption := jsTrim (env.response.getD [])
          contentType := .complex
          svgCandidate := false
          svgReason := []
          svgCode := none
          extractedText := none }) ∧
    (∀ block, braceMatch (jsTrim (env.response.getD [])) = some block →
      env.jparse block = none →
      vlmExtract env =
        { caption := jsTrim (env.response.getD [])
          contentType := .complex
          svgCandidate := false
          svgReason := []
          svgCode := none
          extractedText := none }) := by
  refine ⟨?_, ?_, ?_⟩
  · unfold analyzeWithVLM
    rw [hh]
    rfl
  · intro hnone
    simp only [vlmExtract, hg, Bool.not_true, hnone]
    rfl
  · intro block hblock hparse
    simp only [vlmExtract, hg, Bool.not_true, hblock, hparse]
    rfl

/-- Witness for C7 at a concrete reachable world with a brace-free response. -/
theorem analyzeWithVLM_extraction_fallback_witness :
    (analyzeWithVLM noJsonEnv {}).2 = .ok (vlmExtract noJsonEnv) ∧
    (braceMatch (jsTrim (noJsonEnv.response.getD [])) = none →
      vlmExtract noJsonEnv =
        { caption := jsTrim (noJsonEnv.response.getD [])
          contentType := .complex
          svgCandidate := false
          svgReason := []
          svgCode := none
          extractedText := none }) ∧
    (∀ block, braceMatch (jsTrim (noJsonEnv.response.getD [])) = some block →
      noJsonEnv.jparse block = none →
      vlmExtract noJsonEnv =
        { caption := jsTrim (noJsonEnv.response.getD [])
          contentType := .complex
          svgCandidate := false
          svgReason := []
          svgCode := none
          extractedText := none }) :=
  analyzeWithVLM_extraction_fallback noJsonEnv {} (by decide) (by decide)

-- ### C8 — exactly one generation request per invocation

/-- C8: in every invocation of `analyzeWithVLM` whose availability probe
succeeds, exactly one `/api/generate` network call is issued (and exactly
one probe request precedes it). -/
theorem analyzeWithVLM_one_generate (env : VlmEnv) (options : VlmOptions)
    (hh : env.healthOk = true) :
    ((analyzeWithVLM env options).1.countP (fun c => isGenerate c)) = 1 ∧
    ((analyzeWithVLM env options).1.countP (fun c => c == NetCall.probeTags)) = 1 := by
  unfold analyzeWithVLM
  rw [hh]
  simp [List.countP_cons, isGenerate]

/-- Witness for C8 at a concrete reachable world. -/
theorem analyzeWithVLM_one_generate_witness :
    ((analyzeWithVLM noJsonEnv {}).1.countP (fun c => isGenerate c)) = 1 ∧
    ((analyzeWithVLM noJsonEnv {}).1.countP (fun c => c == NetCall.probeTags)) = 1 :=
  analyzeWithVLM_one_generate noJsonEnv {} (by decide)

-- ### C1 — MIME type is consistent with the returned strategy

/-- C1: whenever `optimizeForLLM` returns a result, its `mimeType` agrees
with its `strategy` under the §3 mapping: `SEMANTIC_SVG` gives
`image/svg+xml`, `KEEP_AS_IS` gives `getImageMimeTypeFromFormat` of the
original format, `RASTER_OPTIMIZE` gives `image/jpeg`. -/
theorem optimizeForLLM_mime_consistent (codec : Codec) (venv : VlmEnv)
    (input : Bytes) (options : Option OptimizeOptions) (r : OptimizeResult)
    (h : optimizeForLLM codec venv input options = .ok r) :
    r.mimeType = specMime r.strategy r.metadata.format := by
  unfold optimizeForLLM at h
  cases ha : analyzeImage codec input with
  | error e => rw [ha] at h; cases h
  | ok analysis =>
    rw [ha] at h
    dsimp only at h
    obtain ⟨hstrat, -⟩ := analyzeImage_ok ha
    have hne : analysis.strategy ≠ .SEMANTIC_SVG := by
      rw [hstrat]; exact determineStrategy_ne_semantic _
    by_cases hw : wantsVlm options
    · rw [if_pos hw] at h
      injection h with h
      subst h
      unfold vlmPath
      cases hv : (analyzeWithVLM venv (vlmCallOptions (options.getD {}))).2.toOption with
      | none => exact fallbackResult_mime _ _ _ _ _ _ hne
      | some vr =>
        dsimp only
        split_ifs with hsvg htext
        · rfl
        · rfl
        · exact fallbackResult_mime _ _ _ _ _ _ hne
    · rw [if_neg (by simpa using hw)] at h
      injection h with h
      subst h
      exact fallbackResult_mime _ _ _ _ _ _ hne

/-- Witness for C1 at a concrete raster input with no options. -/
theorem optimizeForLLM_mime_consistent_witness :
    pngResult.mimeType = specMime pngResult.strategy pngResult.metadata.format :=
  optimizeForLLM_mime_consistent pngCodec offEnv [0] none pngResult (by decide)

-- ### C2 — unreachable VLM is suppressed (amended: raster only off `svg`)

/-- C2 (amended): when metadata extraction succeeds, the availability probe
fails and a caption is requested, `optimizeForLLM` still returns (no
exception) the baseline-strategy result with neither caption nor extracted
text; whenever the input's format is not `svg`, that result is the raster
one (`RASTER_OPTIMIZE` with MIME type `image/jpeg`). -/
theorem optimizeForLLM_probe_down (codec : Codec) (venv : VlmEnv)
    (input : Bytes) (options : Option OptimizeOptions) (meta : ImageMetadata)
    (hmeta : extractMetadata codec input = .ok meta)
    (hdown : venv.healthOk = false)
    (hcap : optTrue (getOpt options (fun o => o.generateCaption)) = true) :
    ∃ r, optimizeForLLM codec venv input options = .ok r ∧
      r.caption = none ∧ r.extractedText = none ∧
      r.strategy = determineStrategy meta ∧
      r.mimeType = specMime (determineStrategy meta) meta.format ∧
      (meta.format ≠ "svg" →
        r.strategy = .RASTER_OPTIMIZE ∧ r.mimeType = "image/jpeg") := by
  have hw : wantsVlm options = true := by
    unfold wantsVlm
    rw [hcap]
    rfl
  have ha : analyzeImage codec input = .ok ⟨meta, determineStrategy meta, 1⟩ := by
    unfold analyzeImage
    rw [hmeta]
  have hvl : (analyzeWithVLM venv (vlmCallOptions (options.getD {}))).2.toOption
      = none := by
    unfold analyzeWithVLM
    rw [hdown]
    rfl
  refine ⟨fallbackResult codec input (options.getD {}).maxDimension
      (options.getD {}).quality ⟨meta, determineStrategy meta, 1⟩ none,
    ?_, rfl, rfl, rfl, ?_, ?_⟩
  · unfold optimizeForLLM
    rw [ha]
    dsimp only
    rw [if_pos hw]
    unfold vlmPath
    rw [hvl]
  · by_cases hf : meta.format = "svg" <;>
      simp [fallbackResult, determineStrategy, hf, specMime]
  · intro hfmt
    constructor <;> simp [fallbackResult, determineStrategy, hfmt]

/-- Witness for C2 at a concrete raster input with the probe down. -/
theorem optimizeForLLM_probe_down_witness :
    ∃ r, optimizeForLLM pngCodec offEnv [0] (some capOpts) = .ok r ∧
      r.caption = none ∧ r.extractedText = none ∧
      r.strategy = determineStrategy pngMeta ∧
      r.mimeType = specMime (determineStrategy pngMeta) pngMeta.format ∧
      (pngMeta.format ≠ "svg" →
        r.strategy = .RASTER_OPTIMIZE ∧ r.mimeType = "image/jpeg") :=
  optimizeForLLM_probe_down pngCodec offEnv [0] (some capOpts) pngMeta
    (by decide) (by decide) (by decide)

/-- Counterexample to C2 as stated: for an `svg`-format input with the probe
down and a caption requested, the call succeeds but the result is the
keep-as-is one, not a raster one. -/
theorem optimizeForLLM_probe_down_svg_cex :
    offEnv.healthOk = false ∧
    optTrue capOpts.generateCaption = true ∧
    (optimizeForLLM svgCodec offEnv [0] (some capOpts)).toOption.map
        (fun r => (r.strategy, r.mimeType, r.caption.isSome)) =
      some (ImageStrategy.KEEP_AS_IS, "image/svg+xml", false) ∧
    ImageStrategy.KEEP_AS_IS ≠ ImageStrategy.RASTER_OPTIMIZE := by
  refine ⟨rfl, rfl, by decide, by decide⟩

-- ### C6 — caption and extracted text only when requested and obtained

theorem vlmCaption_some {o : OptimizeOptions} {vr : VlmAnalysisResult}
    {cap : Chars} (h : vlmCaption o vr = some cap) :
    optTrue o.generateCaption = true ∧ vr.caption = cap ∧ cap ≠ [] := by
  unfold vlmCaption at h
  split_ifs at h with hc
  injection h with h
  subst h
  refine ⟨hc.1, rfl, ?_⟩
  simpa [List.isEmpty_iff] using hc.2

/-- C6 (amended): a returned `caption` requires that the caption capability
was requested and a non-empty caption was obtained from the VLM call; a
returned `extractedText` requires that the text-extraction or the caption
capability was requested and the VLM classified the image `text` with
non-empty extracted text. -/
theorem optimizeForLLM_aux_only_if (codec : Codec) (venv : VlmEnv)
    (input : Bytes) (options : Option OptimizeOptions) (r : OptimizeResult)
    (h : optimizeForLLM codec venv input options = .ok r) :
    (∀ cap, r.caption = some cap →
      optTrue (getOpt options (fun o => o.generateCaption)) = true ∧
      ∃ vr, (analyzeWithVLM venv (vlmCallOptions (options.getD {}))).2 = .ok vr ∧
        vr.caption = cap ∧ cap ≠ []) ∧
    (∀ t, r.extractedText = some t →
      (optTrue (getOpt options (fun o => o.extractText)) = true ∨
       optTrue (getOpt options (fun o => o.generateCaption)) = true) ∧
      ∃ vr, (analyzeWithVLM venv (vlmCallOptions (options.getD {}))).2 = .ok vr ∧
        vr.extractedText = some t ∧ vr.contentType = .text ∧ t ≠ []) := by
  unfold optimizeForLLM at h
  cases ha : analyzeImage codec input with
  | error e => rw [ha] at h; cases h
  | ok analysis =>
    rw [ha] at h
    dsimp only at h
    by_cases hw : wantsVlm options
    · rw [if_pos hw] at h
      injection h with h
      subst h
      obtain ⟨o, rfl⟩ := wantsVlm_some hw
      simp only [Option.getD_some, getOpt]
      unfold vlmPath
      cases hv : (analyzeWithVLM venv (vlmCallOptions o)).2.toOption with
      | none => exact ⟨fun cap hcap => (nomatch hcap), fun t ht => (nomatch ht)⟩
      | some vr =>
        have hvr := except_toOption_some hv
        dsimp only
        split_ifs with hsvg htext
        · refine ⟨fun cap hcap => ?_, fun t ht => (nomatch ht)⟩
          obtain ⟨h1, h2, h3⟩ := vlmCaption_some hcap
          exact ⟨h1, vr, hvr, h2, h3⟩
        · refine ⟨fun cap hcap => ?_, fun t ht => ?_⟩
          · obtain ⟨h1, h2, h3⟩ := vlmCaption_some hcap
            exact ⟨h1, vr, hvr, h2, h3⟩
          · dsimp only at ht
            obtain ⟨hreq, hct, hstr⟩ := htext
            rw [ht] at hstr
            refine ⟨hreq, vr, hvr, ht, hct, ?_⟩
            simpa [strTruthy, List.isEmpty_iff] using hstr
        · refine ⟨fun cap hcap => ?_, fun t ht => (nomatch ht)⟩
          obtain ⟨h1, h2, h3⟩ := vlmCaption_some hcap
          exact ⟨h1, vr, hvr, h2, h3⟩
    · rw [if_neg (by simpa using hw)] at h
      injection h with h
      subst h
      exact ⟨fun cap hcap => (nomatch hcap), fun t ht => (nomatch ht)⟩

/-- Witness for C6 at a concrete call returning neither auxiliary field. -/
theorem optimizeForLLM_aux_only_if_witness :
    (∀ cap, pngResult.caption = some cap →
      optTrue (getOpt none (fun o => o.generateCaption)) = true ∧
      ∃ vr, (analyzeWithVLM offEnv (vlmCallOptions ((none : Option OptimizeOptions).getD {}))).2 = .ok vr ∧
        vr.caption = cap ∧ cap ≠ []) ∧
    (∀ t, pngResult.extractedText = some t →
      (optTrue (getOpt none (fun o => o.extractText)) = true ∨
       optTrue (getOpt none (fun o => o.generateCaption)) = true) ∧
      ∃ vr, (analyzeWithVLM offEnv (vlmCallOptions ((none : Option OptimizeOptions).getD {}))).2 = .ok vr ∧
        vr.extractedText = some t ∧ vr.contentType = .text ∧ t ≠ []) :=
  optimizeForLLM_aux_only_if pngCodec offEnv [0] none pngResult (by decide)

/-- Counterexample to C6 as stated: with only the caption capability
requested, a `text`-classified VLM answer still attaches `extractedText`. -/
theorem optimizeForLLM_extractedText_cex :
    optTrue capOpts.extractText = false ∧
    (optimizeForLLM pngCodec textEnv [0] (some capOpts)).toOption.map
        (fun r => r.extractedText) = some (some "hi".toList) := by
  refine ⟨rfl, by decide⟩

-- ### C9 — keep-as-is round trip is the identity

/-- C9: an input classified `KEEP_AS_IS` (format `svg`) with no auxiliary
capability requested is returned byte-identical, and feeding the returned
bytes through `optimizeForLLM` again (any remote world, any option set with
no auxiliary capability) again returns them byte-identical. -/
theorem optimizeForLLM_keep_roundtrip (codec : Codec) (venv1 venv2 : VlmEnv)
    (input : Bytes) (o1 o2 : Option OptimizeOptions) (meta : ImageMetadata)
    (hmeta : extractMetadata codec input = .ok meta)
    (hfmt : meta.format = "svg")
    (h1 : wantsVlm o1 = false) (h2 : wantsVlm o2 = false) :
    ∃ r1 r2, optimizeForLLM codec venv1 input o1 = .ok r1 ∧ r1.buffer = input ∧
      optimizeForLLM codec venv2 r1.buffer o2 = .ok r2 ∧ r2.buffer = input := by
  have hstrat : determineStrategy meta = .KEEP_AS_IS := by
    unfold determineStrategy
    rw [if_pos hfmt]
  have ha : analyzeImage codec input = .ok ⟨meta, determineStrategy meta, 1⟩ := by
    unfold analyzeImage
    rw [hmeta]
  have key : ∀ (venv : VlmEnv) (o : Option OptimizeOptions), wantsVlm o = false →
      optimizeForLLM codec venv input o =
        .ok (fallbackResult codec input (getOpt o (fun v => v.maxDimension))
          (getOpt o (fun v => v.quality)) ⟨meta, determineStrategy meta, 1⟩ none) := by
    intro venv o ho
    unfold optimizeForLLM
    rw [ha]
    dsimp only
    rw [if_neg (by simp [ho])]
  have hbuf : ∀ md q cap,
      (fallbackResult codec input md q ⟨meta, determineStrategy meta, 1⟩ cap).buffer
        = input := by
    intro md q cap
    simp [fallbackResult, processImageByStrategy, hstrat]
  refine ⟨fallbackResult codec input (getOpt o1 (fun v => v.maxDimension))
      (getOpt o1 (fun v => v.quality)) ⟨meta, determineStrategy meta, 1⟩ none,
    fallbackResult codec input (getOpt o2 (fun v => v.maxDimension))
      (getOpt o2 (fun v => v.quality)) ⟨meta, determineStrategy meta, 1⟩ none,
    key venv1 o1 h1, hbuf _ _ _, ?_, hbuf _ _ _⟩
  rw [hbuf _ _ _]
  exact key venv2 o2 h2

/-- Witness for C9 at a concrete `svg` input. -/
theorem optimizeForLLM_keep_roundtrip_witness :
    ∃ r1 r2, optimizeForLLM svgCodec offEnv [7] none = .ok r1 ∧ r1.buffer = [7] ∧
      optimizeForLLM svgCodec offEnv r1.buffer none = .ok r2 ∧ r2.buffer = [7] :=
  optimizeForLLM_keep_roundtrip svgCodec offEnv offEnv [7] none none svgMeta
    (by decide) (by decide) (by decide) (by decide)

-- ### C10 — the semantic buffer is the untrimmed UTF-8 encoding

/-- C10: a `SEMANTIC_SVG` result's buffer is the UTF-8 encoding of the
`svgCode` string exactly as extracted from the VLM answer, without trimming;
the validator guarantees only that its trimmed form begins with `<svg` and
that the trimmed form's UTF-8 size is at most 5120 bytes. -/
theorem optimizeForLLM_semantic_buffer (codec : Codec) (venv : VlmEnv)
    (input : Bytes) (options : Option OptimizeOptions) (r : OptimizeResult)
    (h : optimizeForLLM codec venv input options = .ok r)
    (hs : r.strategy = .SEMANTIC_SVG) :
    ∃ vr s, (analyzeWithVLM venv (vlmCallOptions (options.getD {}))).2 = .ok vr ∧
      vr.svgCode = some s ∧
      r.buffer = utf8Encode s ∧
      isLikelySemanticSvg s 5120 = true ∧
      (jsTrim s).take 4 = "<svg".toList ∧
      (utf8Encode (jsTrim s)).length ≤ 5120 := by
  unfold optimizeForLLM at h
  cases ha : analyzeImage codec input with
  | error e => rw [ha] at h; cases h
  | ok analysis =>
    rw [ha] at h
    dsimp only at h
    obtain ⟨hstrat, -⟩ := analyzeImage_ok ha
    have hne : analysis.strategy ≠ .SEMANTIC_SVG := by
      rw [hstrat]; exact determineStrategy_ne_semantic _
    by_cases hw : wantsVlm options
    · rw [if_pos hw] at h
      injection h with h
      subst h
      unfold vlmPath at hs ⊢
      cases hv : (analyzeWithVLM venv (vlmCallOptions (options.getD {}))).2.toOption with
      | none => rw [hv] at hs; exact absurd hs hne
      | some vr =>
        rw [hv] at hs
        have hvr := except_toOption_some hv
        dsimp only at hs ⊢
        split_ifs at hs ⊢ with hsvg htext
        · obtain ⟨-, -, hstr, hlike⟩ := hsvg
          cases hcode : vr.svgCode with
          | none => rw [hcode] at hstr; cases hstr
          | some s =>
            rw [hcode] at hlike
            simp only [Option.getD_some] at hlike
            refine ⟨vr, s, hvr, hcode, by simp [hcode], hlike, ?_, ?_⟩
            · exact ((isLikelySemanticSvg_spec s 5120).mp hlike).1
            · exact ((isLikelySemanticSvg_spec s 5120).mp hlike).2.1
        · exact absurd hs hne
    · rw [if_neg (by simpa using hw)] at h
      injection h with h
      subst h
      exact absurd hs hne

/-- Witness for C10 at a concrete accepted SVG answer carrying leading
whitespace in its `svgCode`. -/
theorem optimizeForLLM_semantic_buffer_witness :
    ∃ vr s, (analyzeWithVLM svgEnv (vlmCallOptions ((some svgOpts).getD {}))).2 = .ok vr ∧
      vr.svgCode = some s ∧
      svgResult.buffer = utf8Encode s ∧
      isLikelySemanticSvg s 5120 = true ∧
      (jsTrim s).take 4 = "<svg".toList ∧
      (utf8Encode (jsTrim s)).length ≤ 5120 :=
  optimizeForLLM_semantic_buffer pngCodec svgEnv [0] (some svgOpts) svgResult
    (by decide) (by decide)

-- ### C5 — the sampled colour count and its true bound

theorem range_filter_mod_len (s : Nat) (hs : 0 < s) (n : Nat) :
    ((List.range n).filter (fun i => i % s = 0)).length = (n + s - 1) / s := by
  induction n with
  | zero =>
    simp only [List.range_zero, List.filter_nil, List.length_nil, Nat.zero_add]
    rw [Nat.div_eq_of_lt (by omega)]
  | succ n ih =>
    rw [List.range_succ, List.filter_append, List.length_append, ih,
      List.filter_singleton]
    obtain ⟨q, r, hr, rfl⟩ : ∃ q r, r < s ∧ n = s * q + r :=
      ⟨n / s, n % s, Nat.mod_lt n hs, (Nat.div_add_mod n s).symm⟩
    have hmod : (s * q + r) % s = r := by
      rw [Nat.mul_add_mod, Nat.mod_eq_of_lt hr]
    have hss : s * (q + 1) = s * q + s := by ring
    by_cases hr0 : r = 0
    · subst hr0
      simp only [Nat.add_zero] at hmod ⊢
      have e1 : s * q + s - 1 = s * q + (s - 1) := by omega
      have e2 : s * q + 1 + s - 1 = s * (q + 1) := by omega
      have d1 : (s * q + (s - 1)) / s = q := by
        rw [Nat.mul_add_div hs, Nat.div_eq_of_lt (by omega), Nat.add_zero]
      rw [e1, e2, d1, Nat.mul_div_cancel_left _ hs]
      simp [hmod]
    · have e1 : s * q + r + s - 1 = s * (q + 1) + (r - 1) := by omega
      have e2 : s * q + r + 1 + s - 1 = s * (q + 1) + r := by omega
      have d1 : (s * (q + 1) + (r - 1)) / s = q + 1 := by
        rw [Nat.mul_add_div hs, Nat.div_eq_of_lt (by omega), Nat.add_zero]
      have d2 : (s * (q + 1) + r) / s = q + 1 := by
        rw [Nat.mul_add_div hs, Nat.div_eq_of_lt hr, Nat.add_zero]
      rw [e1, e2, d1, d2]
      simp [hmod, hr0]

theorem sampled_le (s n : Nat) (hs : 0 < s) :
    (n + max 1 (n / s) - 1) / max 1 (n / s) ≤ 2 * s - 1 := by
  rcases Nat.eq_zero_or_pos (n / s) with hq | hq
  · have hn : n < s := (Nat.div_eq_zero_iff hs).mp hq
    rw [hq]
    simp
    omega
  · have hmax : max 1 (n / s) = n / s := max_eq_right hq
    rw [hmax]
    have hn : n < (n / s + 1) * s := by
      calc n = s * (n / s) + n % s := (Nat.div_add_mod n s).symm
        _ < s * (n / s) + s := Nat.add_lt_add_left (Nat.mod_lt n hs) _
        _ = (n / s + 1) * s := by ring
    generalize hqg : n / s = q at hq hn ⊢
    have key : q + s ≤ q * s + 1 := by
      obtain ⟨a, ha⟩ : ∃ a, q = a + 1 := ⟨q - 1, by omega⟩
      obtain ⟨b, hb⟩ : ∃ b, s = b + 1 := ⟨s - 1, by omega⟩
      subst ha hb
      calc (a + 1) + (b + 1) = a + b + 2 := by ring
        _ ≤ a * b + (a + b + 2) := Nat.le_add_left _ _
        _ = (a + 1) * (b + 1) + 1 := by ring
    have hlt : n + q - 1 < (2 * s) * q := by
      ring_nf at hn key ⊢
      omega
    have := (Nat.div_lt_iff_lt_mul hq).mpr hlt
    omega

theorem countDistinctColors_bound (raw : RawImage) (s c : Nat) (hs : 0 < s)
    (h : countDistinctColors raw s = .ok c) : c ≤ 2 * s - 1 := by
  unfold countDistinctColors at h
  split_ifs at h with hz
  injection h with h
  subst h
  have h1 := (List.dedup_sublist
    ((List.filter (fun i => i % max 1 (raw.width * raw.height / s) = 0)
      (List.range (raw.width * raw.height))).map
        (pixelKey raw.data))).length_le
  rw [List.length_map] at h1
  rw [range_filter_mod_len _ (by positivity) _] at h1
  exact h1.trans (sampled_le s (raw.width * raw.height) hs)

theorem flatten_getD (ls : List (List Nat)) (h3 : ∀ l ∈ ls, l.length = 3) :
    ∀ i j, j < 3 → ls.flatten.getD (i * 3 + j) 0 = (ls.getD i []).getD j 0 := by
  induction ls with
  | nil => intro i j hj; simp
  | cons l rest ih =>
    intro i j hj
    have hl : l.length = 3 := h3 l (by simp)
    cases i with
    | zero =>
      simp only [List.flatten_cons, Nat.zero_mul, Nat.zero_add]
      rw [List.getD_append _ _ _ _ (by omega)]
      simp
    | succ i' =>
      simp only [List.flatten_cons]
      rw [List.getD_append_right _ _ _ _ (by omega)]
      have he : (i' + 1) * 3 + j - l.length = i' * 3 + j := by omega
      rw [he, ih (fun m hm => h3 m (by simp [hm])) i' j hj]
      simp

theorem range_map_getD (f : Nat → List Nat) (n i : Nat) (hi : i < n) :
    ((List.range n).map f).getD i [] = f i := by
  rw [List.getD_eq_getElem _ _ (by simpa using hi)]
  simp

theorem stripe_getD (i : Nat) (hi : i < 1001) (j : Nat) (hj : j < 3) :
    stripeData.getD (i * 3 + j) 0 = [i / 256, i % 256, 0].getD j 0 := by
  have hfl : ∀ l ∈ (List.range 1001).map (fun k => [k / 256, k % 256, 0]),
      l.length = 3 := by
    intro l hl
    simp only [List.mem_map] at hl
    obtain ⟨k, -, rfl⟩ := hl
    rfl
  unfold stripeData
  rw [flatten_getD _ hfl i j hj, range_map_getD _ _ _ hi]

theorem shiftLeft_lor_of_lt (a : Nat) : ∀ (k b : Nat), b < 2 ^ k →
    (a <<< k) ||| b = a <<< k + b := by
  intro k
  induction k with
  | zero =>
    intro b hb
    have hb0 : b = 0 := by simpa using hb
    subst hb0
    simp
  | succ k ih =>
    intro b hb
    have hb2 : b / 2 < 2 ^ k := by
      have h2 : 2 ^ (k + 1) = 2 ^ k * 2 := by ring
      omega
    have hbit : Nat.bit (decide (b % 2 = 1)) (b >>> 1) = b :=
      Nat.bit_decide_mod_two_eq_one_shiftRight_one b
    have hsh : a <<< (k + 1) = Nat.bit false (a <<< k) := by
      simp [Nat.shiftLeft_succ, Nat.bit]
    have hc : (decide (b % 2 = 1)).toNat = b % 2 := by
      rcases Nat.mod_two_eq_zero_or_one b with h | h <;> simp [h]
    rw [← hbit, hsh, Nat.lor_bit]
    simp only [Bool.false_or]
    rw [Nat.shiftRight_one]
    rw [ih (b / 2) hb2]
    simp only [Nat.bit_val, Bool.toNat_false, hc]
    omega

theorem stripe_key (i : Nat) (hi : i < 1001) :
    pixelKey stripeData i = 256 * i := by
  have h0 := stripe_getD i hi 0 (by omega)
  have h1 := stripe_getD i hi 1 (by omega)
  have h2 := stripe_getD i hi 2 (by omega)
  rw [Nat.add_zero] at h0
  have g0 : [i / 256, i % 256, 0].getD 0 0 = i / 256 := rfl
  have g1 : [i / 256, i % 256, 0].getD 1 0 = i % 256 := rfl
  have g2 : [i / 256, i % 256, 0].getD 2 0 = 0 := rfl
  rw [g0] at h0
  rw [g1] at h1
  rw [g2] at h2
  unfold pixelKey
  rw [h0, h1, h2, Nat.or_zero]
  have e8 : (i % 256) <<< 8 = (i % 256) * 256 := by
    simp [Nat.shiftLeft_eq]
  rw [shiftLeft_lor_of_lt _ 16 _ (by rw [e8]; omega)]
  have e16 : (i / 256) <<< 16 = (i / 256) * 65536 := by
    simp [Nat.shiftLeft_eq]
  rw [e16, e8]
  omega

theorem cdc_eq (data : Bytes) :
    countDistinctColors ⟨data, 1001, 1⟩ 1000 =
      .ok (((List.range 1001).map (pixelKey data)).dedup.length) := by
  unfold countDistinctColors
  dsimp only
  rw [if_neg (by norm_num)]
  have hstep : max 1 (1001 * 1 / 1000) = 1 := by norm_num
  rw [hstep]
  have hfilter : (List.range (1001 * 1)).filter (fun i => i % 1 = 0) =
      List.range 1001 := by
    rw [List.filter_eq_self.mpr (by intro a _; simp [Nat.mod_one])]
  rw [hfilter]

theorem stripe_cex : countDistinctColors stripeRaw 1000 = .ok 1001 := by
  have h1 : countDistinctColors stripeRaw 1000 =
      .ok (((List.range 1001).map (pixelKey stripeData)).dedup.length) :=
    cdc_eq stripeData
  rw [h1]
  have hmap : (List.range 1001).map (pixelKey stripeData) =
      (List.range 1001).map (fun i => 256 * i) :=
    List.map_congr_left (fun i hi => stripe_key i (List.mem_range.mp hi))
  rw [hmap]
  have hnd : ((List.range 1001).map (fun i => 256 * i)).Nodup :=
    (List.nodup_range 1001).map (fun a b h => by omega)
  rw [List.dedup_eq_self.mpr hnd, List.length_map, List.length_range]

/-- C5 (amended): `countDistinctColors` visits the pixels at stride
`max 1 (totalPixels / sampleSize)` and packs three 8-bit channels per
visited pixel into one 24-bit key (this is its definition); the resulting
count — and hence the `distinctColors` field `extractMetadata` produces at
the default `sampleSize` of 1000 — is at most `2 * sampleSize - 1`.  The
spec's bound of `sampleSize` itself does not hold. -/
theorem distinctColors_sample_bound :
    (∀ raw s c, 0 < s → countDistinctColors raw s = .ok c → c ≤ 2 * s - 1) ∧
    (∀ codec input m, extractMetadata codec input = .ok m →
      m.distinctColors ≤ 2 * 1000 - 1) := by
  have part1 : ∀ raw s c, 0 < s → countDistinctColors raw s = .ok c →
      c ≤ 2 * s - 1 := fun raw s c hs h => countDistinctColors_bound raw s c hs h
  refine ⟨part1, ?_⟩
  intro codec input m h
  unfold extractMetadata at h
  cases hcd : countDistinctColors (codec.rawOf input) with
  | error e => rw [hcd] at h; cases h
  | ok dc =>
    rw [hcd] at h
    injection h with h
    subst h
    exact part1 _ 1000 dc (by norm_num) hcd

/-- Counterexample to C5 as stated: a 1001-pixel image with 1001 distinct
colours is sampled at stride 1, so the returned count, 1001, exceeds the
default `sampleSize` of 1000. -/
theorem countDistinctColors_sampleSize_cex :
    countDistinctColors stripeRaw 1000 = .ok 1001 ∧ 1000 < 1001 :=
  ⟨stripe_cex, by norm_num⟩

end Img4llm
